import Mathlib

/-!
Verification of the CodeQuality repository's core algorithms: the
response-normalization layer of `src/services/ai-service.ts` (markdown fence
stripping, JSON parsing, field defaulting for the six analysis result types),
the API-key sanitizer `sanitizeApiKey`, and the heuristic language detector
`detectLanguage` of `src/App.tsx`.

Strings are modelled as `List Char`.  JavaScript semantics that the source
relies on (`String.prototype.replace` with the two fence regexes, `trim`,
`JSON.parse`, property access, truthiness of `||`, the regular-expression
probes of the detector) are embedded explicitly.
-/

namespace CodeQuality

def btick : Char := Char.ofNat 96

def isJsSpace (c : Char) : Bool :=
  c = ' ' || c = '\t' || c = '\n' || c = '\r' || c = '\x0b' || c = '\x0c' ||
  c = Char.ofNat 0xA0 || c = Char.ofNat 0xFEFF

def stripFenceJson : List Char → List Char
  | c :: d :: e :: f :: g :: h :: i :: j :: rest =>
    if c = btick && d = btick && e = btick && f = 'j' && g = 's' && h = 'o' && i = 'n' then
      if j = '\n' then stripFenceJson rest else stripFenceJson (j :: rest)
    else
      c :: stripFenceJson (d :: e :: f :: g :: h :: i :: j :: rest)
  | [c, d, e, f, g, h, i] =>
    if c = btick && d = btick && e = btick && f = 'j' && g = 's' && h = 'o' && i = 'n' then
      []
    else
      c :: stripFenceJson [d, e, f, g, h, i]
  | l => l

def stripFence : List Char → List Char
  | c :: d :: e :: f :: rest =>
    if c = btick && d = btick && e = btick then
      if f = '\n' then stripFence rest else stripFence (f :: rest)
    else
      c :: stripFence (d :: e :: f :: rest)
  | [c, d, e] =>
    if c = btick && d = btick && e = btick then [] else c :: stripFence [d, e]
  | l => l

def trimLeft (l : List Char) : List Char := l.dropWhile isJsSpace
def trimRight (l : List Char) : List Char := (l.reverse.dropWhile isJsSpace).reverse
def jsTrim (l : List Char) : List Char := trimRight (trimLeft l)
def cleanResp (l : List Char) : List Char := jsTrim (stripFence (stripFenceJson l))

def beginsTriple : List Char → Bool
  | c :: d :: e :: _ => c = btick && d = btick && e = btick
  | _ => false

def hasTriple : List Char → Bool
  | [] => false
  | c :: rest => beginsTriple (c :: rest) || hasTriple rest

def leadB : List Char → Nat
  | [] => 0
  | c :: rest => if c = btick then leadB rest + 1 else 0

/-- JSON whitespace accepted by `JSON.parse` (space, tab, LF, CR). -/
def isJsonWs (c : Char) : Bool := c = ' ' || c = '\t' || c = '\n' || c = '\r'

def skipWs (l : List Char) : List Char := l.dropWhile isJsonWs

/-- A JSON numeric literal, as the exact value `mantissa * 10 ^ exponent`.
(IEEE-754 rounding performed by `JSON.parse` is not modelled; every numeric
literal in this development is a small integer, which doubles represent
exactly.) -/
structure JsonNumber where
  mantissa : Int
  exponent : Int
deriving DecidableEq, Repr

/-- A JavaScript value produced by `JSON.parse`.  Object members are kept in
source order; duplicate keys are resolved by `jsLookup` (last wins, as in
JavaScript). -/
inductive Json where
  | null
  | bool (b : Bool)
  | num (n : JsonNumber)
  | str (s : String)
  | arr (elems : List Json)
  | obj (members : List (String × Json))

def digitVal (c : Char) : Nat := c.toNat - 48

def parseDigitsAux : List Char → Nat → Nat → Nat × Nat × List Char
  | c :: rest, acc, cnt =>
    if c.isDigit then parseDigitsAux rest (acc * 10 + digitVal c) (cnt + 1)
    else (acc, cnt, c :: rest)
  | [], acc, cnt => (acc, cnt, [])

/-- Consume a maximal run of decimal digits; returns value, digit count, rest. -/
def parseDigits (l : List Char) : Nat × Nat × List Char := parseDigitsAux l 0 0

/-- Optional exponent part `[eE][+-]?digits`.  When the `e` is not followed by
a digit it is left unconsumed (the overall parse then fails on the leftover,
matching `JSON.parse` rejecting such input). -/
def parseExpPart (mantissa : Int) (fracCnt : Nat) (l : List Char) :
    JsonNumber × List Char :=
  match l with
  | c :: rest =>
    if c = 'e' || c = 'E' then
      let signAndRest : Int × List Char :=
        match rest with
        | d :: r2 => if d = '-' then (-1, r2) else if d = '+' then (1, r2) else (1, rest)
        | [] => (1, rest)
      match signAndRest.2 with
      | d :: _ =>
        if d.isDigit then
          let (ev, _, r3) := parseDigits signAndRest.2
          (⟨mantissa, signAndRest.1 * ev - fracCnt⟩, r3)
        else (⟨mantissa, -(fracCnt : Int)⟩, c :: rest)
      | [] => (⟨mantissa, -(fracCnt : Int)⟩, c :: rest)
    else (⟨mantissa, -(fracCnt : Int)⟩, c :: rest)
  | [] => (⟨mantissa, -(fracCnt : Int)⟩, [])

/-- Optional fraction part then optional exponent.  A `.` not followed by a
digit is left unconsumed (the overall parse then fails on the leftover). -/
def parseFracExp (neg : Bool) (ipart : Nat) (l : List Char) :
    JsonNumber × List Char :=
  let fracState : Nat × Nat × List Char :=
    match l with
    | '.' :: rest =>
      match rest with
      | d :: _ =>
        if d.isDigit then
          let (fv, fc, r2) := parseDigits rest
          (ipart * 10 ^ fc + fv, fc, r2)
        else (ipart, 0, '.' :: rest)
      | [] => (ipart, 0, '.' :: rest)
    | _ => (ipart, 0, l)
  let m : Int := if neg then -(fracState.1 : Int) else (fracState.1 : Int)
  parseExpPart m fracState.2.1 fracState.2.2

/-- JSON number grammar: `-? (0 | [1-9][0-9]*) frac? exp?`.  A redundant
leading zero stops the integer part after the `0`, so `01` leaves `1`
unconsumed and the enclosing parse fails, as `JSON.parse` does. -/
def parseNumberFn (l : List Char) : Option (JsonNumber × List Char) :=
  let signAndRest : Bool × List Char :=
    match l with
    | c :: rest => if c = '-' then (true, rest) else (false, l)
    | [] => (false, l)
  match signAndRest.2 with
  | c :: rest =>
    if c = '0' then some (parseFracExp signAndRest.1 0 rest)
    else if c.isDigit then
      let (v, _, r) := parseDigits (c :: rest)
      some (parseFracExp signAndRest.1 v r)
    else none
  | [] => none

def hexVal (c : Char) : Option Nat :=
  let n := c.toNat
  if 48 ≤ n ∧ n ≤ 57 then some (n - 48)
  else if 97 ≤ n ∧ n ≤ 102 then some (n - 87)
  else if 65 ≤ n ∧ n ≤ 70 then some (n - 55)
  else none

def escChar (c : Char) : Option Char :=
  if c = '"' then some '"'
  else if c = '\\' then some '\\'
  else if c = '/' then some '/'
  else if c = 'b' then some '\x08'
  else if c = 'f' then some '\x0c'
  else if c = 'n' then some '\n'
  else if c = 'r' then some '\r'
  else if c = 't' then some '\t'
  else none

/-- String body scanner, after the opening quote; `acc` holds the parsed
characters in reverse.  Surrogate pairs from `\uXXXX` escapes are combined;
a lone surrogate (legal for `JSON.parse`, which works on UTF-16) has no
`Char` counterpart and is modelled as U+FFFD; no fixture uses one.
Unescaped control characters are rejected, as in `JSON.parse`. -/
def parseStringAux : List Char → List Char → Option (String × List Char)
  | '"' :: rest, acc => some (String.mk acc.reverse, rest)
  | '\\' :: 'u' :: h1 :: h2 :: h3 :: h4 :: '\\' :: 'u' :: g1 :: g2 :: g3 :: g4 :: rest, acc =>
    match hexVal h1, hexVal h2, hexVal h3, hexVal h4 with
    | some a, some b, some c, some d =>
      let u := ((a * 16 + b) * 16 + c) * 16 + d
      if 0xD800 ≤ u ∧ u ≤ 0xDBFF then
        match hexVal g1, hexVal g2, hexVal g3, hexVal g4 with
        | some a2, some b2, some c2, some d2 =>
          let u2 := ((a2 * 16 + b2) * 16 + c2) * 16 + d2
          if 0xDC00 ≤ u2 ∧ u2 ≤ 0xDFFF then
            parseStringAux rest
              (Char.ofNat (0x10000 + (u - 0xD800) * 0x400 + (u2 - 0xDC00)) :: acc)
          else
            parseStringAux ('\\' :: 'u' :: g1 :: g2 :: g3 :: g4 :: rest)
              (Char.ofNat 0xFFFD :: acc)
        | _, _, _, _ => none
      else
        parseStringAux ('\\' :: 'u' :: g1 :: g2 :: g3 :: g4 :: rest)
          (Char.ofNat u :: acc)
    | _, _, _, _ => none
  | '\\' :: 'u' :: h1 :: h2 :: h3 :: h4 :: rest, acc =>
    match hexVal h1, hexVal h2, hexVal h3, hexVal h4 with
    | some a, some b, some c, some d =>
      let u := ((a * 16 + b) * 16 + c) * 16 + d
      if 0xD800 ≤ u ∧ u ≤ 0xDFFF then parseStringAux rest (Char.ofNat 0xFFFD :: acc)
      else parseStringAux rest (Char.ofNat u :: acc)
    | _, _, _, _ => none
  | '\\' :: c :: rest, acc =>
    match escChar c with
    | some ch => parseStringAux rest (ch :: acc)
    | none => none
  | c :: rest, acc =>
    if c.toNat < 0x20 then none else parseStringAux rest (c :: acc)
  | [], _ => none

mutual

/-- Recursive-descent `JSON.parse`, fuelled; parses one value (with leading
whitespace) and returns the unconsumed rest. -/
def parseValue : Nat → List Char → Option (Json × List Char)
  | 0, _ => none
  | fuel + 1, l =>
    match skipWs l with
    | [] => none
    | c :: rest =>
      if c = '"' then
        match parseStringAux rest [] with
        | some (s, r) => some (.str s, r)
        | none => none
      else if c = '[' then parseArrayBody fuel rest
      else if c = '{' then parseObjectBody fuel rest
      else if c = 't' then
        match rest with
        | 'r' :: 'u' :: 'e' :: r => some (.bool true, r)
        | _ => none
      else if c = 'f' then
        match rest with
        | 'a' :: 'l' :: 's' :: 'e' :: r => some (.bool false, r)
        | _ => none
      else if c = 'n' then
        match rest with
        | 'u' :: 'l' :: 'l' :: r => some (.null, r)
        | _ => none
      else if c = '-' || c.isDigit then
        match parseNumberFn (c :: rest) with
        | some (n, r) => some (.num n, r)
        | none => none
      else none

/-- After `[`: empty array or first element then the comma loop. -/
def parseArrayBody : Nat → List Char → Option (Json × List Char)
  | 0, _ => none
  | fuel + 1, l =>
    match skipWs l with
    | ']' :: r => some (.arr [], r)
    | l1 =>
      match parseValue fuel l1 with
      | some (v, r) =>
        match parseArrayRest fuel r with
        | some (vs, r2) => some (.arr (v :: vs), r2)
        | none => none
      | none => none

def parseArrayRest : Nat → List Char → Option (List Json × List Char)
  | 0, _ => none
  | fuel + 1, l =>
    match skipWs l with
    | ',' :: r =>
      match parseValue fuel r with
      | some (v, r2) =>
        match parseArrayRest fuel r2 with
        | some (vs, r3) => some (v :: vs, r3)
        | none => none
      | none => none
    | ']' :: r => some ([], r)
    | _ => none

/-- After `{`: empty object or first member then the comma loop. -/
def parseObjectBody : Nat → List Char → Option (Json × List Char)
  | 0, _ => none
  | fuel + 1, l =>
    match skipWs l with
    | '}' :: r => some (.obj [], r)
    | '"' :: r =>
      match parseStringAux r [] with
      | some (k, r2) =>
        match skipWs r2 with
        | ':' :: r3 =>
          match parseValue fuel r3 with
          | some (v, r4) =>
            match parseObjectRest fuel r4 with
            | some (ms, r5) => some (.obj ((k, v) :: ms), r5)
            | none => none
          | none => none
        | _ => none
      | none => none
    | _ => none

def parseObjectRest : Nat → List Char → Option (List (String × Json) × List Char)
  | 0, _ => none
  | fuel + 1, l =>
    match skipWs l with
    | ',' :: r =>
      match skipWs r with
      | '"' :: r1 =>
        match parseStringAux r1 [] with
        | some (k, r2) =>
          match skipWs r2 with
          | ':' :: r3 =>
            match parseValue fuel r3 with
            | some (v, r4) =>
              match parseObjectRest fuel r4 with
              | some (ms, r5) => some ((k, v) :: ms, r5)
              | none => none
            | none => none
          | _ => none
        | none => none
      | _ => none
    | '}' :: r => some ([], r)
    | _ => none

end

/-- `JSON.parse`: the whole input must be one JSON value, up to surrounding
whitespace. -/
def jsonParse (l : List Char) : Option Json :=
  match parseValue (4 * l.length + 8) l with
  | some (v, rest) => if skipWs rest = [] then some v else none
  | none => none



/-- Property lookup on a parsed object: later duplicate keys win, as in
JavaScript. -/
def jsLookup : List (String × Json) → String → Option Json
  | [], _ => none
  | (k', v) :: rest, k =>
    match jsLookup rest k with
    | some v' => some v'
    | none => if k' = k then some v else none

/-- JavaScript truthiness of a `JSON.parse` value (`NaN` cannot occur). -/
def Json.truthy : Json → Bool
  | .null => false
  | .bool b => b
  | .num n => n.mantissa != 0
  | .str s => s ≠ ""
  | .arr _ => true
  | .obj _ => true

/-- JavaScript property access `v.k`: a `TypeError` on `null`, the member on
an object (`undefined` = `none` when absent), `undefined` on any other
primitive or array (none of the accessed names is `length` or an own
array/string property). -/
def jsProp (v : Json) (k : String) : Except Unit (Option Json) :=
  match v with
  | .null => .error ()
  | .obj ms => .ok (jsLookup ms k)
  | _ => .ok none

/-- Optional chaining `v?.length`: `undefined` when `v` is `undefined` or
`null`, the length of an array or string, the `length` member of an object,
`undefined` for the other primitives. -/
def optChainLength : Option Json → Option Json
  | none => none
  | some .null => none
  | some (.arr vs) => some (.num ⟨vs.length, 0⟩)
  | some (.str s) => some (.num ⟨s.length, 0⟩)
  | some (.obj ms) => jsLookup ms "length"
  | some _ => none

/-- JavaScript `a || d` where `a` may be `undefined` (`none`). -/
def jsOr (v : Option Json) (d : Json) : Json :=
  match v with
  | some j => if j.truthy then j else d
  | none => d

/-- Integer-valued JSON number. -/
def jnum (m : Int) : Json := .num ⟨m, 0⟩

/-- The error message thrown by every normalizer's catch block. -/
def parseFailMsg : String := "Failed to parse AI response. Please try again."

structure ExplainerResult where
  summary : Json
  explanations : Json

structure BugFinderResult where
  bugs : Json
  totalCount : Json
  severitySummary : Json

structure RefactorResult where
  suggestions : Json
  overallScore : Json

structure CodeSmellResult where
  smells : Json
  totalCount : Json
  categorySummary : Json
  overallHealthScore : Json

structure ComplexityResult where
  functions : Json
  overallMetrics : Json
  maintainabilityIndex : Json
  recommendations : Json

structure SecurityResult where
  vulnerabilities : Json
  totalCount : Json
  severitySummary : Json
  categorySummary : Json
  securityScore : Json
  recommendations : Json

def severitySummaryBugDefault : Json :=
  .obj [("critical", jnum 0), ("high", jnum 0), ("medium", jnum 0), ("low", jnum 0)]

def severitySummarySecDefault : Json :=
  .obj [("critical", jnum 0), ("high", jnum 0), ("medium", jnum 0), ("low", jnum 0),
        ("info", jnum 0)]

def categorySummarySmellDefault : Json :=
  .obj [("bloaters", jnum 0), ("oo-abusers", jnum 0), ("change-preventers", jnum 0),
        ("dispensables", jnum 0), ("couplers", jnum 0)]

def categorySummarySecDefault : Json :=
  .obj [("injection", jnum 0), ("broken-auth", jnum 0), ("sensitive-data", jnum 0),
        ("xxe", jnum 0), ("broken-access", jnum 0), ("security-misconfig", jnum 0),
        ("xss", jnum 0), ("insecure-deserialization", jnum 0),
        ("vulnerable-components", jnum 0), ("logging-monitoring", jnum 0)]

def overallMetricsDefault : Json :=
  .obj [("averageCyclomaticComplexity", jnum 0), ("averageCognitiveComplexity", jnum 0),
        ("maxNestingDepth", jnum 0), ("totalFunctions", jnum 0), ("complexFunctions", jnum 0)]

/-- Body of `parseExplainerResponse`'s `try` block after `JSON.parse`. -/
def explainerOfData (data : Json) : Except Unit ExplainerResult := do
  let summary ← jsProp data "summary"
  let explanations ← jsProp data "explanations"
  pure { summary := jsOr summary (.str "Analysis completed."),
         explanations := jsOr explanations (.arr []) }

/-- Body of `parseBugFinderResponse`'s `try` block: `data.bugs || []`,
`data.totalCount || data.bugs?.length || 0`, severity summary or the
all-zero default. -/
def bugFinderOfData (data : Json) : Except Unit BugFinderResult := do
  let bugs ← jsProp data "bugs"
  let tc ← jsProp data "totalCount"
  let bugs2 ← jsProp data "bugs"
  let sev ← jsProp data "severitySummary"
  pure { bugs := jsOr bugs (.arr []),
         totalCount := jsOr tc (jsOr (optChainLength bugs2) (jnum 0)),
         severitySummary := jsOr sev severitySummaryBugDefault }

/-- Body of `parseRefactoringResponse`'s `try` block: `data.suggestions || []`,
`data.overallScore || 70`. -/
def refactorOfData (data : Json) : Except Unit RefactorResult := do
  let suggestions ← jsProp data "suggestions"
  let score ← jsProp data "overallScore"
  pure { suggestions := jsOr suggestions (.arr []),
         overallScore := jsOr score (jnum 70) }

/-- Body of `parseCodeSmellResponse`'s `try` block: note `totalCount` is
`data.smells?.length || 0` — the response's own `totalCount` is not read. -/
def codeSmellOfData (data : Json) : Except Unit CodeSmellResult := do
  let smells ← jsProp data "smells"
  let smells2 ← jsProp data "smells"
  let cs ← jsProp data "categorySummary"
  let hs ← jsProp data "overallHealthScore"
  pure { smells := jsOr smells (.arr []),
         totalCount := jsOr (optChainLength smells2) (jnum 0),
         categorySummary := jsOr cs categorySummarySmellDefault,
         overallHealthScore := jsOr hs (jnum 70) }

/-- Body of `parseComplexityResponse`'s `try` block. -/
def complexityOfData (data : Json) : Except Unit ComplexityResult := do
  let fns ← jsProp data "functions"
  let om ← jsProp data "overallMetrics"
  let mi ← jsProp data "maintainabilityIndex"
  let recs ← jsProp data "recommendations"
  pure { functions := jsOr fns (.arr []),
         overallMetrics := jsOr om overallMetricsDefault,
         maintainabilityIndex := jsOr mi (jnum 70),
         recommendations := jsOr recs (.arr []) }

/-- Body of `parseSecurityResponse`'s `try` block: note `totalCount` is
`data.vulnerabilities?.length || 0` — the response's own `totalCount` is not
read. -/
def securityOfData (data : Json) : Except Unit SecurityResult := do
  let vulns ← jsProp data "vulnerabilities"
  let vulns2 ← jsProp data "vulnerabilities"
  let ss ← jsProp data "severitySummary"
  let cs ← jsProp data "categorySummary"
  let sc ← jsProp data "securityScore"
  let recs ← jsProp data "recommendations"
  pure { vulnerabilities := jsOr vulns (.arr []),
         totalCount := jsOr (optChainLength vulns2) (jnum 0),
         severitySummary := jsOr ss severitySummarySecDefault,
         categorySummary := jsOr cs categorySummarySecDefault,
         securityScore := jsOr sc (jnum 70),
         recommendations := jsOr recs (.arr []) }

/-- The shared `try { clean; JSON.parse; build } catch { throw }` shape of all
six normalizers: both a `JSON.parse` failure and a `TypeError` inside the
`try` block surface as the same thrown message. -/
def runNorm {α : Type} (response : String) (body : Json → Except Unit α) :
    Except String α :=
  match jsonParse (cleanResp response.data) with
  | none => .error parseFailMsg
  | some data =>
    match body data with
    | .error _ => .error parseFailMsg
    | .ok r => .ok r

def parseExplainerResponse (response : String) : Except String ExplainerResult :=
  runNorm response explainerOfData

def parseBugFinderResponse (response : String) : Except String BugFinderResult :=
  runNorm response bugFinderOfData

def parseRefactoringResponse (response : String) : Except String RefactorResult :=
  runNorm response refactorOfData

def parseCodeSmellResponse (response : String) : Except String CodeSmellResult :=
  runNorm response codeSmellOfData

def parseComplexityResponse (response : String) : Except String ComplexityResult :=
  runNorm response complexityOfData

def parseSecurityResponse (response : String) : Except String SecurityResult :=
  runNorm response securityOfData

-- sanity checks

/-- `sanitizeApiKey` from `ai-service.ts`:
`apiKey.trim().replace(/[^\x00-\x7F]/g, '')`. -/
def sanitizeApiKey (apiKey : String) : String :=
  String.mk ((jsTrim apiKey.data).filter (fun c => c.toNat ≤ 0x7F))

/-- The missing-credential validation at the top of `callAI`:
`!config.apiKey || config.apiKey.trim() === ''`. -/
def callAIMissingKey (apiKey : String) : Bool :=
  apiKey.data.isEmpty || (jsTrim apiKey.data).isEmpty

/-- `\w`: ASCII letters, digits, underscore. -/
def isWordChar (c : Char) : Bool := c.isAlpha || c.isDigit || c = '_'

/-- `.`: any character except a line terminator. -/
def isDotChar (c : Char) : Bool :=
  !(c = '\n' || c = '\r' || c.toNat = 0x2028 || c.toNat = 0x2029)

/-- One item of a (star-free, alternation-expanded) regular-expression
sequence: a literal character, one character of a class, a greedy `*` over a
class, or a `\b` word-boundary assertion. -/
inductive Pat where
  | lit (c : Char)
  | cls (f : Char → Bool)
  | star (f : Char → Bool)
  | wb

def wordBoundary (prev : Option Char) (l : List Char) : Bool :=
  (match prev with | some c => isWordChar c | none => false) !=
  (match l with | c :: _ => isWordChar c | [] => false)

/-- Does the pattern sequence match a prefix of `l`?  `prev` is the character
just before the current position (for `\b`).  Backtracking is complete: each
step either consumes a character or discards a pattern item, so fuel
`l.length + pats.length + 2` can never run out. -/
def matchSeqF : Nat → List Pat → Option Char → List Char → Bool
  | 0, _, _, _ => false
  | _ + 1, [], _, _ => true
  | fuel + 1, .lit c :: ps, _, d :: l => c = d && matchSeqF fuel ps (some d) l
  | _ + 1, .lit _ :: _, _, [] => false
  | fuel + 1, .cls f :: ps, _, d :: l => f d && matchSeqF fuel ps (some d) l
  | _ + 1, .cls _ :: _, _, [] => false
  | fuel + 1, .star _ :: ps, prev, [] => matchSeqF fuel ps prev []
  | fuel + 1, .star f :: ps, prev, d :: l =>
    matchSeqF fuel ps prev (d :: l) || (f d && matchSeqF fuel (.star f :: ps) (some d) l)
  | fuel + 1, .wb :: ps, prev, l => wordBoundary prev l && matchSeqF fuel ps prev l

def tryMatch (ps : List Pat) (prev : Option Char) (l : List Char) : Bool :=
  matchSeqF (l.length + ps.length + 2) ps prev l

/-- `.test` of an unanchored regex, given as a list of alternative sequences:
try a match at every position. -/
def searchFrom (alts : List (List Pat)) : Option Char → List Char → Bool
  | prev, [] => alts.any (fun ps => tryMatch ps prev [])
  | prev, d :: l => alts.any (fun ps => tryMatch ps prev (d :: l)) || searchFrom alts (some d) l

def regexTest (alts : List (List Pat)) (s : List Char) : Bool := searchFrom alts none s

/-- `.test` of a `^`-anchored regex. -/
def regexTestA (alts : List (List Pat)) (s : List Char) : Bool :=
  alts.any (fun ps => tryMatch ps none s)

def lits (s : String) : List Pat := s.data.map Pat.lit

/-- `\s` (one, then any number: together `\s+`). -/
def wsPlus : List Pat := [.cls isJsSpace, .star isJsSpace]

def wsStar : List Pat := [.star isJsSpace]

/-- `\w+`. -/
def wPlus : List Pat := [.cls isWordChar, .star isWordChar]

/-- `/:\s*$/.test(line)`: the line, after dropping trailing whitespace, ends
in a colon. -/
def colonEol (l : List Char) : Bool :=
  match l.reverse.dropWhile isJsSpace with
  | c :: _ => c = ':'
  | [] => false

/-- `/^(def|class|import|from|if __name__|print\(|async def)\s/`. -/
def pyR1 : List (List Pat) :=
  ["def", "class", "import", "from", "if __name__", "print("].map
    (fun kw => lits kw ++ [.cls isJsSpace]) ++
  [lits "async def" ++ [.cls isJsSpace]]

/-- `/^\s*(def|class|import|from|elif|async def)\s/`. -/
def pyR3 : List (List Pat) :=
  ["def", "class", "import", "from", "elif", "async def"].map
    (fun kw => wsStar ++ lits kw ++ [.cls isJsSpace])

def pythonCond (line0 codeContent : List Char) : Bool :=
  regexTestA pyR1 codeContent || colonEol line0 || regexTestA pyR3 codeContent

/-- `/\b(public|private|protected)\s+(static\s+)?(class|interface|enum|void|int|String)\b/`. -/
def javaR1 : List (List Pat) :=
  ["public", "private", "protected"].flatMap fun k1 =>
    ([[], lits "static" ++ wsPlus] : List (List Pat)).flatMap fun st =>
      ["class", "interface", "enum", "void", "int", "String"].map fun k2 =>
        [Pat.wb] ++ lits k1 ++ wsPlus ++ st ++ lits k2 ++ [Pat.wb]

/-- `/\bpackage\s+[\w.]+;/`. -/
def javaR2 : List (List Pat) :=
  [[Pat.wb] ++ lits "package" ++ wsPlus ++
    [.cls (fun c => isWordChar c || c = '.'), .star (fun c => isWordChar c || c = '.'),
     .lit ';']]

/-- `/\bimport\s+java\./`. -/
def javaR3 : List (List Pat) := [[Pat.wb] ++ lits "import" ++ wsPlus ++ lits "java."]

/-- `/\bSystem\.out\.println/`. -/
def javaR4 : List (List Pat) := [[Pat.wb] ++ lits "System.out.println"]

def javaCond (codeContent : List Char) : Bool :=
  regexTest javaR1 codeContent || regexTest javaR2 codeContent ||
  regexTest javaR3 codeContent || regexTest javaR4 codeContent

/-- `/\b(namespace|using\s+System|public\s+class|private\s+class)\b/`. -/
def csR1 : List (List Pat) :=
  [[Pat.wb] ++ lits "namespace" ++ [Pat.wb],
   [Pat.wb] ++ lits "using" ++ wsPlus ++ lits "System" ++ [Pat.wb],
   [Pat.wb] ++ lits "public" ++ wsPlus ++ lits "class" ++ [Pat.wb],
   [Pat.wb] ++ lits "private" ++ wsPlus ++ lits "class" ++ [Pat.wb]]

/-- `/\bConsole\.WriteLine/`. -/
def csR2 : List (List Pat) := [[Pat.wb] ++ lits "Console.WriteLine"]

/-- `/\[.*Attribute\]/`. -/
def csR3 : List (List Pat) := [[Pat.lit '['] ++ [.star isDotChar] ++ lits "Attribute]"]

/-- `/\basync\s+Task/`. -/
def csR4 : List (List Pat) := [[Pat.wb] ++ lits "async" ++ wsPlus ++ lits "Task"]

def csharpCond (codeContent : List Char) : Bool :=
  regexTest csR1 codeContent || regexTest csR2 codeContent ||
  regexTest csR3 codeContent || regexTest csR4 codeContent

/-- `/#include\s*[<"]/`. -/
def cppR1 : List (List Pat) :=
  [lits "#include" ++ wsStar ++ [.cls (fun c => c = '<' || c = '"')]]

/-- `/\b(std::|cout|cin|endl|nullptr|template\s*<)\b/`. -/
def cppR2 : List (List Pat) :=
  [[Pat.wb] ++ lits "std::" ++ [Pat.wb],
   [Pat.wb] ++ lits "cout" ++ [Pat.wb],
   [Pat.wb] ++ lits "cin" ++ [Pat.wb],
   [Pat.wb] ++ lits "endl" ++ [Pat.wb],
   [Pat.wb] ++ lits "nullptr" ++ [Pat.wb],
   [Pat.wb] ++ lits "template" ++ wsStar ++ [Pat.lit '<'] ++ [Pat.wb]]

/-- `/^using namespace std;?/` (the optional `;` cannot affect `.test`). -/
def cppR3 : List (List Pat) := [lits "using namespace std"]

def cppCond (codeContent : List Char) : Bool :=
  regexTest cppR1 codeContent || regexTest cppR2 codeContent ||
  regexTestA cppR3 codeContent

/-- `/^package\s+\w+/` (tested against the trimmed code, not the comment-
stripped content). -/
def goR1 : List (List Pat) := [lits "package" ++ wsPlus ++ wPlus]

/-- `/\bfunc\s+\w+\(/`. -/
def goR2 : List (List Pat) := [[Pat.wb] ++ lits "func" ++ wsPlus ++ wPlus ++ [Pat.lit '(']]

/-- `/\bimport\s+\(/`. -/
def goR3 : List (List Pat) := [[Pat.wb] ++ lits "import" ++ wsPlus ++ [Pat.lit '(']]

/-- `/\bfmt\.Print/`. -/
def goR4 : List (List Pat) := [[Pat.wb] ++ lits "fmt.Print"]

/-- `/:=\s*/`. -/
def goR5 : List (List Pat) := [lits ":=" ++ wsStar]

def goCond (trimmedCode codeContent : List Char) : Bool :=
  regexTestA goR1 trimmedCode || regexTest goR2 codeContent ||
  regexTest goR3 codeContent || regexTest goR4 codeContent ||
  regexTest goR5 codeContent

/-- `/\bfn\s+\w+/`. -/
def rustR1 : List (List Pat) := [[Pat.wb] ++ lits "fn" ++ wsPlus ++ wPlus]

/-- `/\blet\s+mut\s+/`. -/
def rustR2 : List (List Pat) := [[Pat.wb] ++ lits "let" ++ wsPlus ++ lits "mut" ++ wsPlus]

/-- `/\buse\s+std::/`. -/
def rustR3 : List (List Pat) := [[Pat.wb] ++ lits "use" ++ wsPlus ++ lits "std::"]

/-- `/\bimpl\s+/`. -/
def rustR4 : List (List Pat) := [[Pat.wb] ++ lits "impl" ++ wsPlus]

/-- `/\b(pub\s+)?(struct|enum|trait)\s+/`. -/
def rustR5 : List (List Pat) :=
  ([[], lits "pub" ++ wsPlus] : List (List Pat)).flatMap fun pub =>
    ["struct", "enum", "trait"].map fun k => [Pat.wb] ++ pub ++ lits k ++ wsPlus

def rustCond (codeContent : List Char) : Bool :=
  regexTest rustR1 codeContent || regexTest rustR2 codeContent ||
  regexTest rustR3 codeContent || regexTest rustR4 codeContent ||
  regexTest rustR5 codeContent

/-- `/\b(def|class|module|require|puts|attr_accessor|end)\b/`. -/
def rubyR1 : List (List Pat) :=
  ["def", "class", "module", "require", "puts", "attr_accessor", "end"].map
    fun k => [Pat.wb] ++ lits k ++ [Pat.wb]

/-- `/\bdo\s*\|.*\|/`. -/
def rubyR2 : List (List Pat) :=
  [[Pat.wb] ++ lits "do" ++ wsStar ++ [Pat.lit '|', .star isDotChar, .lit '|']]

/-- `/@\w+/`. -/
def rubyR3 : List (List Pat) := [[Pat.lit '@'] ++ wPlus]

/-- `/\bdef\s+/`. -/
def rubyR4 : List (List Pat) := [[Pat.wb] ++ lits "def" ++ wsPlus]

def rubyCond (codeContent : List Char) : Bool :=
  regexTest rubyR1 codeContent || regexTest rubyR2 codeContent ||
  (regexTest rubyR3 codeContent && regexTest rubyR4 codeContent)

/-- `/^<\?php/` (tested against the trimmed code). -/
def phpR1 : List (List Pat) := [lits "<?php"]

/-- `/\$\w+\s*=/`. -/
def phpR2 : List (List Pat) := [[Pat.lit '$'] ++ wPlus ++ wsStar ++ [Pat.lit '=']]

/-- `/\bfunction\s+\w+\(.*\)\s*\{/`. -/
def phpR3 : List (List Pat) :=
  [[Pat.wb] ++ lits "function" ++ wsPlus ++ wPlus ++
    [Pat.lit '(', .star isDotChar, .lit ')'] ++ wsStar ++ [Pat.lit (Char.ofNat 123)]]

/-- `/\$/`. -/
def phpR3b : List (List Pat) := [[Pat.lit '$']]

/-- `/\b(echo|print_r|var_dump)\b/`. -/
def phpR4 : List (List Pat) :=
  ["echo", "print_r", "var_dump"].map fun k => [Pat.wb] ++ lits k ++ [Pat.wb]

def phpCond (trimmedCode codeContent : List Char) : Bool :=
  regexTestA phpR1 trimmedCode || regexTest phpR2 codeContent ||
  (regexTest phpR3 codeContent && regexTest phpR3b codeContent) ||
  regexTest phpR4 codeContent

/-- `/:\s*(string|number|boolean|any|void|never|unknown)\b/`. -/
def tsR1 : List (List Pat) :=
  ["string", "number", "boolean", "any", "void", "never", "unknown"].map
    fun k => [Pat.lit ':'] ++ wsStar ++ lits k ++ [Pat.wb]

/-- `/\binterface\s+\w+/`. -/
def tsR2 : List (List Pat) := [[Pat.wb] ++ lits "interface" ++ wsPlus ++ wPlus]

/-- `/\btype\s+\w+\s*=/`. -/
def tsR3 : List (List Pat) :=
  [[Pat.wb] ++ lits "type" ++ wsPlus ++ wPlus ++ wsStar ++ [Pat.lit '=']]

/-- `/<\w+>/`. -/
def tsR4 : List (List Pat) := [[Pat.lit '<'] ++ wPlus ++ [Pat.lit '>']]

/-- `/\bfunction\s+/`. -/
def tsR4b : List (List Pat) := [[Pat.wb] ++ lits "function" ++ wsPlus]

/-- `/\bas\s+\w+/`. -/
def tsR5 : List (List Pat) := [[Pat.wb] ++ lits "as" ++ wsPlus ++ wPlus]

/-- `/\benum\s+\w+/`. -/
def tsR6 : List (List Pat) := [[Pat.wb] ++ lits "enum" ++ wsPlus ++ wPlus]

def tsCond (codeContent : List Char) : Bool :=
  regexTest tsR1 codeContent || regexTest tsR2 codeContent ||
  regexTest tsR3 codeContent ||
  (regexTest tsR4 codeContent && regexTest tsR4b codeContent) ||
  regexTest tsR5 codeContent || regexTest tsR6 codeContent

/-- `/\b(const|let|var|function|class|import|export|async|await|=>)\b/`. -/
def jsR1 : List (List Pat) :=
  ["const", "let", "var", "function", "class", "import", "export", "async",
   "await", "=>"].map fun k => [Pat.wb] ++ lits k ++ [Pat.wb]

/-- `/\bconsole\.(log|error|warn)/`. -/
def jsR2 : List (List Pat) :=
  ["log", "error", "warn"].map fun k => [Pat.wb] ++ lits "console." ++ lits k

/-- `/\brequire\(/`. -/
def jsR3 : List (List Pat) := [[Pat.wb] ++ lits "require("]

/-- `/\bmodule\.exports/`. -/
def jsR4 : List (List Pat) := [[Pat.wb] ++ lits "module.exports"]

def jsCond (codeContent : List Char) : Bool :=
  regexTest jsR1 codeContent || regexTest jsR2 codeContent ||
  regexTest jsR3 codeContent || regexTest jsR4 codeContent

/-- `code.split('\n')`. -/
def splitNl : List Char → List (List Char)
  | [] => [[]]
  | c :: rest =>
    if c = '\n' then [] :: splitNl rest
    else
      match splitNl rest with
      | ln :: lns => (c :: ln) :: lns
      | [] => [[c]]

/-- `.join('\n')`. -/
def joinNl : List (List Char) → List Char
  | [] => []
  | [ln] => ln
  | ln :: lns => ln ++ '\n' :: joinNl lns

/-- `line.startsWith('//')`. -/
def isLineComment : List Char → Bool
  | '/' :: '/' :: _ => true
  | _ => false

/-- `const trimmedCode = code.trim()`. -/
def trimmedCodeOf (code : String) : List Char := jsTrim code.data

/-- `const lines = trimmedCode.split('\n').map(line => line.trim())`. -/
def linesOf (code : String) : List (List Char) := (splitNl (trimmedCodeOf code)).map jsTrim

/-- `lines[0]` (the split of a string is never empty). -/
def line0Of (code : String) : List Char := (linesOf code).headD []

/-- `const codeContent = lines.filter(l => l.length > 0 && !l.startsWith('//')).join('\n')`. -/
def codeContentOf (code : String) : List Char :=
  joinNl ((linesOf code).filter (fun ln => !ln.isEmpty && !isLineComment ln))

/-- `detectLanguage` from `src/App.tsx`: the guarded, ordered cascade of
language-signature probes. -/
def detectLanguage (code : String) : String :=
  if code.data.isEmpty || (jsTrim code.data).isEmpty then "javascript"
  else if pythonCond (line0Of code) (codeContentOf code) then "python"
  else if javaCond (codeContentOf code) then "java"
  else if csharpCond (codeContentOf code) then "csharp"
  else if cppCond (codeContentOf code) then "cpp"
  else if goCond (trimmedCodeOf code) (codeContentOf code) then "go"
  else if rustCond (codeContentOf code) then "rust"
  else if rubyCond (codeContentOf code) then "ruby"
  else if phpCond (trimmedCodeOf code) (codeContentOf code) then "php"
  else if tsCond (codeContentOf code) then "typescript"
  else if jsCond (codeContentOf code) then "javascript"
  else "javascript"

/-- The closed language set of the detector, in the spec's order. -/
def languageTags : List String :=
  ["javascript", "typescript", "python", "java", "csharp", "cpp", "go", "rust",
   "ruby", "php"]

/-- Modelled from the spec (section 4.1, step 2): the detector's contract as a
first-match-wins scan of the fixed priority list
Python, Java, C#, C++, Go, Rust, Ruby, PHP, TypeScript, JavaScript, with
fallback `javascript`.  Used to compare `detectLanguage` against the stated
priority policy. -/
def specFirstMatchLang (code : String) : String :=
  match ([("python", pythonCond (line0Of code) (codeContentOf code)),
          ("java", javaCond (codeContentOf code)),
          ("csharp", csharpCond (codeContentOf code)),
          ("cpp", cppCond (codeContentOf code)),
          ("go", goCond (trimmedCodeOf code) (codeContentOf code)),
          ("rust", rustCond (codeContentOf code)),
          ("ruby", rubyCond (codeContentOf code)),
          ("php", phpCond (trimmedCodeOf code) (codeContentOf code)),
          ("typescript", tsCond (codeContentOf code)),
          ("javascript", jsCond (codeContentOf code))].find? (fun p => p.2)) with
  | some p => p.1
  | none => "javascript"

/-- Any signature at all? -/
def anyLangSignal (code : String) : Bool :=
  pythonCond (line0Of code) (codeContentOf code) || javaCond (codeContentOf code) ||
  csharpCond (codeContentOf code) || cppCond (codeContentOf code) ||
  goCond (trimmedCodeOf code) (codeContentOf code) || rustCond (codeContentOf code) ||
  rubyCond (codeContentOf code) || phpCond (trimmedCodeOf code) (codeContentOf code) ||
  tsCond (codeContentOf code) || jsCond (codeContentOf code)


/-- Member lookup on an object value; `none` (= `undefined`) on anything
else.  Agrees with `jsProp` wherever the latter does not throw. -/
def getMember (v : Json) (k : String) : Option Json :=
  match v with
  | .obj ms => jsLookup ms k
  | _ => none

/-- Key `k` is present and mapped to a number. -/
def hasNumKey (j : Json) (k : String) : Bool :=
  match j with
  | .obj ms =>
    match jsLookup ms k with
    | some (.num _) => true
    | _ => false
  | _ => false

def hasAllNumKeys (j : Json) (ks : List String) : Bool := ks.all (hasNumKey j)

/-- The ten fixed OWASP category keys. -/
def secCatKeys : List String :=
  ["injection", "broken-auth", "sensitive-data", "xxe", "broken-access",
   "security-misconfig", "xss", "insecure-deserialization",
   "vulnerable-components", "logging-monitoring"]

/-- The five fixed code-smell category keys. -/
def smellCatKeys : List String :=
  ["bloaters", "oo-abusers", "change-preventers", "dispensables", "couplers"]

theorem hasTriple_cons (c : Char) (rest : List Char) :
    hasTriple (c :: rest) = (beginsTriple (c :: rest) || hasTriple rest) := rfl

theorem leadB_cons (c : Char) (rest : List Char) :
    leadB (c :: rest) = if c = btick then leadB rest + 1 else 0 := rfl

theorem leadB_le_length (l : List Char) : leadB l ≤ l.length := by
  induction l with
  | nil => simp [leadB]
  | cons c rest ih =>
    rw [leadB_cons]
    split
    · simp only [List.length_cons]; omega
    · simp

theorem beginsTriple_iff_leadB (l : List Char) : beginsTriple l = true ↔ 3 ≤ leadB l := by
  match l with
  | [] => simp [beginsTriple, leadB]
  | [c] =>
    have := leadB_le_length [c]
    simp only [beginsTriple, List.length_cons, List.length_nil] at *
    constructor
    · intro h; exact absurd h (by simp)
    · omega
  | [c, d] =>
    have := leadB_le_length [c, d]
    simp only [beginsTriple, List.length_cons, List.length_nil] at *
    constructor
    · intro h; exact absurd h (by simp)
    · omega
  | c :: d :: e :: rest =>
    simp only [beginsTriple, Bool.and_eq_true, decide_eq_true_eq]
    constructor
    · rintro ⟨⟨hc, hd⟩, he⟩; simp [leadB_cons, hc, hd, he]
    · intro h
      by_cases hc : c = btick <;> by_cases hd : d = btick <;> by_cases he : e = btick <;>
        simp [leadB_cons, hc, hd, he] at h ⊢

theorem leadB_le_two_of_not_triple {l : List Char} (h : beginsTriple l = false) :
    leadB l ≤ 2 := by
  have := (beginsTriple_iff_leadB l).not
  simp [h] at this
  omega

theorem beginsTriple_false_of_leadB {l : List Char} (h : leadB l ≤ 2) :
    beginsTriple l = false := by
  have := (beginsTriple_iff_leadB l).not
  rw [Bool.not_eq_true] at this
  exact this.mpr (by omega)

theorem hasTriple_short {l : List Char} (h : l.length ≤ 2) : hasTriple l = false := by
  match l, h with
  | [], _ => rfl
  | [c], _ => rfl
  | [c, d], _ => rfl

/-- Key invariant: the second fence-removal pass leaves no three consecutive
backticks, and never increases the number of leading backticks. -/
theorem stripFence_key (l : List Char) :
    hasTriple (stripFence l) = false ∧ leadB (stripFence l) ≤ leadB l ∧
      leadB (stripFence l) ≤ 2 := by
  induction l using stripFence.induct with
  | case1 c d e rest h ih =>
    simp only [Bool.and_eq_true, decide_eq_true_eq] at h
    obtain ⟨⟨hc, hd⟩, he⟩ := h
    have hsf : stripFence (c :: d :: e :: '\n' :: rest) = stripFence rest := by
      simp only [stripFence, hc, hd, he]
      simp
    rw [hsf]
    refine ⟨ih.1, ?_, ih.2.2⟩
    have hl : leadB (c :: d :: e :: '\n' :: rest) = 3 := by
      rw [leadB_cons, if_pos hc, leadB_cons, if_pos hd, leadB_cons, if_pos he,
        leadB_cons, if_neg (by decide)]
    omega
  | case2 c d e f rest h hf ih =>
    simp only [Bool.and_eq_true, decide_eq_true_eq] at h
    obtain ⟨⟨hc, hd⟩, he⟩ := h
    have hsf : stripFence (c :: d :: e :: f :: rest) = stripFence (f :: rest) := by
      simp only [stripFence, hc, hd, he]
      simp [hf]
    rw [hsf]
    refine ⟨ih.1, ?_, ih.2.2⟩
    have hl : 3 ≤ leadB (c :: d :: e :: f :: rest) := by
      rw [leadB_cons, if_pos hc, leadB_cons, if_pos hd, leadB_cons, if_pos he]
      omega
    omega
  | case3 c d e f rest h ih =>
    rw [Bool.not_eq_true] at h
    have hsf : stripFence (c :: d :: e :: f :: rest) = c :: stripFence (d :: e :: f :: rest) := by
      simp only [stripFence, h]
      simp
    rw [hsf]
    obtain ⟨ih1, ih2, ih3⟩ := ih
    have hlead1 : c = btick → leadB (stripFence (d :: e :: f :: rest)) ≤ 1 := by
      intro hc
      have hde : ¬(d = btick ∧ e = btick) := by
        rintro ⟨hd, he⟩
        rw [Bool.eq_false_iff] at h
        exact h (by simp [hc, hd, he])
      by_cases hd : d = btick
      · have he : ¬e = btick := fun he => hde ⟨hd, he⟩
        have hv : leadB (d :: e :: f :: rest) = 1 := by
          rw [leadB_cons, if_pos hd, leadB_cons, if_neg he]
        omega
      · have hv : leadB (d :: e :: f :: rest) = 0 := by rw [leadB_cons, if_neg hd]
        omega
    have hlead : leadB (c :: stripFence (d :: e :: f :: rest)) ≤ 2 := by
      rw [leadB_cons]
      split
      · have := hlead1 (by assumption); omega
      · omega
    refine ⟨?_, ?_, hlead⟩
    · rw [hasTriple_cons, ih1, Bool.or_false]
      exact beginsTriple_false_of_leadB hlead
    · rw [leadB_cons, leadB_cons]
      split
      · omega
      · omega
  | case4 c d e h =>
    have hsf : stripFence [c, d, e] = [] := by
      simp only [stripFence, h]; simp
    rw [hsf]
    exact ⟨rfl, by simp [leadB], by simp [leadB]⟩
  | case5 c d e h ih =>
    rw [Bool.not_eq_true] at h
    have hsf : stripFence [c, d, e] = [c, d, e] := by
      simp [stripFence, h]
    rw [hsf]
    have hb : beginsTriple [c, d, e] = false := h
    refine ⟨?_, le_refl _, leadB_le_two_of_not_triple hb⟩
    rw [hasTriple_cons, hb, Bool.false_or]
    exact hasTriple_short (by simp)
  | case6 l h1 h2 =>
    have hshort : l.length ≤ 2 := by
      match l, h1, h2 with
      | [], _, _ => simp
      | [a], _, _ => simp
      | [a, b], _, _ => simp
      | [a, b, c], _, h2 => exact absurd rfl (h2 a b c)
      | a :: b :: c :: f :: rest, h1, _ => exact absurd rfl (h1 a b c f rest)
    have hsf : stripFence l = l := by
      match l, h1, h2 with
      | [], _, _ => rfl
      | [a], _, _ => rfl
      | [a, b], _, _ => rfl
      | [a, b, c], _, h2 => exact absurd rfl (h2 a b c)
      | a :: b :: c :: f :: rest, h1, _ => exact absurd rfl (h1 a b c f rest)
    rw [hsf]
    refine ⟨hasTriple_short hshort, le_refl _, ?_⟩
    have := leadB_le_length l
    omega


theorem beginsTriple_append {a : List Char} (b : List Char) (h : beginsTriple a = true) :
    beginsTriple (a ++ b) = true := by
  match a, h with
  | c :: d :: e :: rest, h => simpa [beginsTriple] using h

theorem hasTriple_append_right (a : List Char) {b : List Char} (h : hasTriple b = true) :
    hasTriple (a ++ b) = true := by
  induction a with
  | nil => simpa
  | cons c a ih => rw [List.cons_append, hasTriple_cons, ih, Bool.or_true]

theorem hasTriple_append_left {a : List Char} (b : List Char) (h : hasTriple a = true) :
    hasTriple (a ++ b) = true := by
  induction a with
  | nil => simp [hasTriple] at h
  | cons c a ih =>
    rw [hasTriple_cons] at h
    rw [List.cons_append, hasTriple_cons]
    rcases Bool.or_eq_true_iff.mp h with h1 | h2
    · have hb := beginsTriple_append b h1
      rw [List.cons_append] at hb
      rw [hb, Bool.true_or]
    · rw [ih h2, Bool.or_true]

theorem hasTriple_dropWhile {l : List Char} (p : Char → Bool) (h : hasTriple l = false) :
    hasTriple (l.dropWhile p) = false := by
  by_contra hc
  rw [Bool.not_eq_false] at hc
  have := hasTriple_append_right (l.takeWhile p) hc
  rw [List.takeWhile_append_dropWhile] at this
  rw [this] at h
  exact absurd h (by simp)

theorem trimRight_prefix (l : List Char) : ∃ w, l = trimRight l ++ w := by
  refine ⟨(l.reverse.takeWhile isJsSpace).reverse, ?_⟩
  rw [trimRight]
  rw [← List.reverse_append, List.takeWhile_append_dropWhile, List.reverse_reverse]

theorem hasTriple_trimRight {l : List Char} (h : hasTriple l = false) :
    hasTriple (trimRight l) = false := by
  by_contra hc
  rw [Bool.not_eq_false] at hc
  obtain ⟨w, hw⟩ := trimRight_prefix l
  have := hasTriple_append_left w hc
  rw [← hw] at this
  rw [this] at h
  exact absurd h (by simp)

theorem hasTriple_jsTrim {l : List Char} (h : hasTriple l = false) :
    hasTriple (jsTrim l) = false :=
  hasTriple_trimRight (hasTriple_dropWhile isJsSpace h)

/-- The first pass (```json removal) is the identity on fence-free text. -/
theorem stripFenceJson_id {l : List Char} (h : hasTriple l = false) :
    stripFenceJson l = l := by
  induction l using stripFenceJson.induct with
  | case1 c d e f g h' i rest hcond ih =>
    exfalso
    simp only [Bool.and_eq_true, decide_eq_true_eq] at hcond
    rw [hasTriple_cons, Bool.or_eq_false_iff] at h
    have : beginsTriple (c :: d :: e :: f :: g :: h' :: i :: '\n' :: rest) = true := by
      simp [beginsTriple, hcond.1.1.1.1.1.1, hcond.1.1.1.1.1.2, hcond.1.1.1.1.2]
    rw [this] at h
    exact absurd h.1 (by simp)
  | case2 c d e f g h' i j rest hcond hj ih =>
    exfalso
    simp only [Bool.and_eq_true, decide_eq_true_eq] at hcond
    rw [hasTriple_cons, Bool.or_eq_false_iff] at h
    have : beginsTriple (c :: d :: e :: f :: g :: h' :: i :: j :: rest) = true := by
      simp [beginsTriple, hcond.1.1.1.1.1.1, hcond.1.1.1.1.1.2, hcond.1.1.1.1.2]
    rw [this] at h
    exact absurd h.1 (by simp)
  | case3 c d e f g h' i j rest hcond ih =>
    rw [Bool.not_eq_true] at hcond
    have hsf : stripFenceJson (c :: d :: e :: f :: g :: h' :: i :: j :: rest) =
        c :: stripFenceJson (d :: e :: f :: g :: h' :: i :: j :: rest) := by
      simp [stripFenceJson, hcond]
    rw [hasTriple_cons, Bool.or_eq_false_iff] at h
    rw [hsf, ih h.2]
  | case4 c d e f g h' i hcond =>
    exfalso
    simp only [Bool.and_eq_true, decide_eq_true_eq] at hcond
    rw [hasTriple_cons, Bool.or_eq_false_iff] at h
    have : beginsTriple [c, d, e, f, g, h', i] = true := by
      simp [beginsTriple, hcond.1.1.1.1.1.1, hcond.1.1.1.1.1.2, hcond.1.1.1.1.2]
    rw [this] at h
    exact absurd h.1 (by simp)
  | case5 c d e f g h' i hcond ih =>
    rw [Bool.not_eq_true] at hcond
    have hsf : stripFenceJson [c, d, e, f, g, h', i] =
        c :: stripFenceJson [d, e, f, g, h', i] := by
      simp [stripFenceJson, hcond]
    rw [hasTriple_cons, Bool.or_eq_false_iff] at h
    rw [hsf, ih h.2]
  | case6 l h1 h2 =>
    match l, h1, h2 with
    | [], _, _ => rfl
    | [a], _, _ => rfl
    | [a, b], _, _ => rfl
    | [a, b, c], _, _ => rfl
    | [a, b, c, d], _, _ => rfl
    | [a, b, c, d, e], _, _ => rfl
    | [a, b, c, d, e, f], _, _ => rfl
    | [a, b, c, d, e, f, g], _, h2 => exact absurd rfl (h2 a b c d e f g)
    | a :: b :: c :: d :: e :: f :: g :: j :: rest, h1, _ =>
      exact absurd rfl (h1 a b c d e f g j rest)

/-- The second pass (``` removal) is the identity on fence-free text. -/
theorem stripFence_id {l : List Char} (h : hasTriple l = false) :
    stripFence l = l := by
  induction l using stripFence.induct with
  | case1 c d e rest hcond ih =>
    exfalso
    simp only [Bool.and_eq_true, decide_eq_true_eq] at hcond
    rw [hasTriple_cons, Bool.or_eq_false_iff] at h
    have : beginsTriple (c :: d :: e :: '\n' :: rest) = true := by
      simp [beginsTriple, hcond.1.1, hcond.1.2, hcond.2]
    rw [this] at h
    exact absurd h.1 (by simp)
  | case2 c d e f rest hcond hf ih =>
    exfalso
    simp only [Bool.and_eq_true, decide_eq_true_eq] at hcond
    rw [hasTriple_cons, Bool.or_eq_false_iff] at h
    have : beginsTriple (c :: d :: e :: f :: rest) = true := by
      simp [beginsTriple, hcond.1.1, hcond.1.2, hcond.2]
    rw [this] at h
    exact absurd h.1 (by simp)
  | case3 c d e f rest hcond ih =>
    rw [Bool.not_eq_true] at hcond
    have hsf : stripFence (c :: d :: e :: f :: rest) =
        c :: stripFence (d :: e :: f :: rest) := by
      simp [stripFence, hcond]
    rw [hasTriple_cons, Bool.or_eq_false_iff] at h
    rw [hsf, ih h.2]
  | case4 c d e hcond =>
    exfalso
    simp only [Bool.and_eq_true, decide_eq_true_eq] at hcond
    rw [hasTriple_cons, Bool.or_eq_false_iff] at h
    have : beginsTriple [c, d, e] = true := by
      simp [beginsTriple, hcond.1.1, hcond.1.2, hcond.2]
    rw [this] at h
    exact absurd h.1 (by simp)
  | case5 c d e hcond ih =>
    rw [Bool.not_eq_true] at hcond
    simp [stripFence, hcond]
  | case6 l h1 h2 =>
    match l, h1, h2 with
    | [], _, _ => rfl
    | [a], _, _ => rfl
    | [a, b], _, _ => rfl
    | [a, b, c], _, h2 => exact absurd rfl (h2 a b c)
    | a :: b :: c :: f :: rest, h1, _ => exact absurd rfl (h1 a b c f rest)

theorem dropWhile_idem (p : Char → Bool) (l : List Char) :
    (l.dropWhile p).dropWhile p = l.dropWhile p := by
  induction l with
  | nil => rfl
  | cons c rest ih =>
    rw [List.dropWhile_cons]
    split
    · exact ih
    · rw [List.dropWhile_cons, if_neg (by assumption)]

theorem dropWhile_prefix_fix {p : Char → Bool} {y w : List Char}
    (h : List.dropWhile p (y ++ w) = y ++ w) : List.dropWhile p y = y := by
  match y with
  | [] => rfl
  | c :: y' =>
    rw [List.cons_append, List.dropWhile_cons] at h
    by_cases hp : p c = true
    · exfalso
      rw [if_pos hp] at h
      have hlen : (List.dropWhile p (y' ++ w)).length ≤ (y' ++ w).length :=
        List.Sublist.length_le (List.dropWhile_sublist p)
      rw [h] at hlen
      simp at hlen
    · rw [List.dropWhile_cons, if_neg hp]

theorem trimRight_idem (l : List Char) : trimRight (trimRight l) = trimRight l := by
  rw [trimRight, trimRight, List.reverse_reverse, dropWhile_idem]

theorem trimLeft_trimRight_of_fix {l : List Char} (h : trimLeft l = l) :
    trimLeft (trimRight l) = trimRight l := by
  obtain ⟨w, hw⟩ := trimRight_prefix l
  rw [trimLeft] at *
  exact dropWhile_prefix_fix (by rw [← hw]; exact h)

theorem jsTrim_idem (l : List Char) : jsTrim (jsTrim l) = jsTrim l := by
  rw [jsTrim, jsTrim]
  rw [trimLeft_trimRight_of_fix (by simp only [trimLeft]; rw [dropWhile_idem])]
  exact trimRight_idem _

/-- `cleanResp` is idempotent. -/
theorem cleanResp_idem (l : List Char) : cleanResp (cleanResp l) = cleanResp l := by
  have hkey := (stripFence_key (stripFenceJson l)).1
  have ht : hasTriple (cleanResp l) = false := hasTriple_jsTrim hkey
  conv_lhs => rw [cleanResp]
  rw [stripFenceJson_id ht, stripFence_id ht, cleanResp]
  exact jsTrim_idem _

/-- `cleanResp` is the identity on fence-free, already-trimmed text. -/
theorem cleanResp_id {l : List Char} (h1 : hasTriple l = false) (h2 : jsTrim l = l) :
    cleanResp l = l := by
  rw [cleanResp, stripFenceJson_id h1, stripFence_id h1, h2]


theorem explainerOfData_eq (data : Json) (h : data ≠ .null) :
    explainerOfData data = .ok
      { summary := jsOr (getMember data "summary") (.str "Analysis completed."),
        explanations := jsOr (getMember data "explanations") (.arr []) } := by
  cases data
  · exact absurd rfl h
  all_goals rfl

theorem bugFinderOfData_eq (data : Json) (h : data ≠ .null) :
    bugFinderOfData data = .ok
      { bugs := jsOr (getMember data "bugs") (.arr []),
        totalCount := jsOr (getMember data "totalCount")
          (jsOr (optChainLength (getMember data "bugs")) (jnum 0)),
        severitySummary := jsOr (getMember data "severitySummary")
          severitySummaryBugDefault } := by
  cases data
  · exact absurd rfl h
  all_goals rfl

theorem refactorOfData_eq (data : Json) (h : data ≠ .null) :
    refactorOfData data = .ok
      { suggestions := jsOr (getMember data "suggestions") (.arr []),
        overallScore := jsOr (getMember data "overallScore") (jnum 70) } := by
  cases data
  · exact absurd rfl h
  all_goals rfl

theorem codeSmellOfData_eq (data : Json) (h : data ≠ .null) :
    codeSmellOfData data = .ok
      { smells := jsOr (getMember data "smells") (.arr []),
        totalCount := jsOr (optChainLength (getMember data "smells")) (jnum 0),
        categorySummary := jsOr (getMember data "categorySummary")
          categorySummarySmellDefault,
        overallHealthScore := jsOr (getMember data "overallHealthScore") (jnum 70) } := by
  cases data
  · exact absurd rfl h
  all_goals rfl

theorem complexityOfData_eq (data : Json) (h : data ≠ .null) :
    complexityOfData data = .ok
      { functions := jsOr (getMember data "functions") (.arr []),
        overallMetrics := jsOr (getMember data "overallMetrics") overallMetricsDefault,
        maintainabilityIndex := jsOr (getMember data "maintainabilityIndex") (jnum 70),
        recommendations := jsOr (getMember data "recommendations") (.arr []) } := by
  cases data
  · exact absurd rfl h
  all_goals rfl

theorem securityOfData_eq (data : Json) (h : data ≠ .null) :
    securityOfData data = .ok
      { vulnerabilities := jsOr (getMember data "vulnerabilities") (.arr []),
        totalCount := jsOr (optChainLength (getMember data "vulnerabilities")) (jnum 0),
        severitySummary := jsOr (getMember data "severitySummary")
          severitySummarySecDefault,
        categorySummary := jsOr (getMember data "categorySummary")
          categorySummarySecDefault,
        securityScore := jsOr (getMember data "securityScore") (jnum 70),
        recommendations := jsOr (getMember data "recommendations") (.arr []) } := by
  cases data
  · exact absurd rfl h
  all_goals rfl

/-- A normalizer whose body succeeds off `null` and throws on `null` fails
exactly on unparseable or `null` cleaned text. -/
theorem runNorm_error_iff {α : Type} (s : String) (body : Json → Except Unit α)
    (hbody : ∀ data, data ≠ .null → ∃ r, body data = .ok r)
    (hnull : body .null = .error ()) :
    runNorm s body = .error parseFailMsg ↔
      (jsonParse (cleanResp s.data) = none ∨
       jsonParse (cleanResp s.data) = some .null) := by
  unfold runNorm
  cases hp : jsonParse (cleanResp s.data) with
  | none => simp
  | some data =>
    cases hd : data with
    | null => simp [hnull]
    | bool b =>
      obtain ⟨r, hr⟩ := hbody (.bool b) (by intro hc; cases hc)
      simp [hr]
    | num n =>
      obtain ⟨r, hr⟩ := hbody (.num n) (by intro hc; cases hc)
      simp [hr]
    | str t =>
      obtain ⟨r, hr⟩ := hbody (.str t) (by intro hc; cases hc)
      simp [hr]
    | arr vs =>
      obtain ⟨r, hr⟩ := hbody (.arr vs) (by intro hc; cases hc)
      simp [hr]
    | obj ms =>
      obtain ⟨r, hr⟩ := hbody (.obj ms) (by intro hc; cases hc)
      simp [hr]

/-- C3: on the minimal payload `{}` every normalizer produces the documented
fully-defaulted result: empty finding lists, all-zero histograms with the
complete key sets, `totalCount = 0`, empty recommendation lists, and the
neutral score default 70 for `overallScore`, `overallHealthScore`,
`maintainabilityIndex` and `securityScore` (not 0, not absent). -/
theorem normalizer_empty_object_defaults :
    parseExplainerResponse "\x7b\x7d" = .ok ⟨.str "Analysis completed.", .arr []⟩ ∧
    parseBugFinderResponse "\x7b\x7d" = .ok ⟨.arr [], jnum 0, severitySummaryBugDefault⟩ ∧
    parseRefactoringResponse "\x7b\x7d" = .ok ⟨.arr [], jnum 70⟩ ∧
    parseCodeSmellResponse "\x7b\x7d" =
      .ok ⟨.arr [], jnum 0, categorySummarySmellDefault, jnum 70⟩ ∧
    parseComplexityResponse "\x7b\x7d" =
      .ok ⟨.arr [], overallMetricsDefault, jnum 70, .arr []⟩ ∧
    parseSecurityResponse "\x7b\x7d" =
      .ok ⟨.arr [], jnum 0, severitySummarySecDefault, categorySummarySecDefault,
           jnum 70, .arr []⟩ ∧
    hasAllNumKeys severitySummaryBugDefault ["critical", "high", "medium", "low"] = true ∧
    hasAllNumKeys severitySummarySecDefault
      ["critical", "high", "medium", "low", "info"] = true ∧
    hasAllNumKeys categorySummarySmellDefault smellCatKeys = true ∧
    hasAllNumKeys categorySummarySecDefault secCatKeys = true :=
  ⟨rfl, rfl, rfl, rfl, rfl, rfl, rfl, rfl, rfl, rfl⟩

/-- C10: an all-non-ASCII key (here a Greek one) passes `callAI`'s
missing-credential validation — it is neither empty nor all whitespace — yet
`sanitizeApiKey` maps it to the empty string, so sanitization does not
preserve non-emptiness. -/
theorem sanitizeApiKey_empties_valid_key :
    ∃ s : String, callAIMissingKey s = false ∧ jsTrim s.data ≠ [] ∧
      sanitizeApiKey s = "" :=
  ⟨"κλειδί", by decide, by decide, by decide⟩

/-- C8 counterexample: `" a"` contains no fence marker, yet the cleaning step
changes it (the trailing `.trim()` removes the leading blank), so the claimed
unconditional no-op on fence-free input fails. -/
theorem cleanResp_not_noop_untrimmed :
    hasTriple " a".data = false ∧ cleanResp " a".data ≠ " a".data :=
  ⟨by decide, by decide⟩

/-- C8 (amended): the cleaning step is a no-op on fence-free input that is
already trimmed, and is idempotent on every input. -/
theorem cleanResp_noop_trimmed_and_idem :
    (∀ l : List Char, hasTriple l = false → jsTrim l = l → cleanResp l = l) ∧
    (∀ l : List Char, cleanResp (cleanResp l) = cleanResp l) :=
  ⟨fun _ h1 h2 => cleanResp_id h1 h2, cleanResp_idem⟩

/-- C8 witness: the no-op on a concrete trimmed fence-free string and the
idempotence on a concrete fenced string. -/
theorem cleanResp_noop_trimmed_and_idem_witness :
    cleanResp "abc".data = "abc".data ∧
    cleanResp (cleanResp "```json\n\x7b\x7d".data) = cleanResp "```json\n\x7b\x7d".data :=
  ⟨cleanResp_noop_trimmed_and_idem.1 "abc".data (by decide) (by decide),
   cleanResp_noop_trimmed_and_idem.2 "```json\n\x7b\x7d".data⟩

/-- C2 counterexample: the raw response `"null"` parses as JSON (to the value
`null`), yet every one of the six normalizers throws — the `data.x` property
access inside the `try` block raises a `TypeError` on `null` — so "throws if
and only if the text is not parseable as JSON" is false. -/
theorem normalizer_error_on_parseable_null :
    jsonParse (cleanResp "null".data) = some .null ∧
    parseExplainerResponse "null" = .error parseFailMsg ∧
    parseBugFinderResponse "null" = .error parseFailMsg ∧
    parseRefactoringResponse "null" = .error parseFailMsg ∧
    parseCodeSmellResponse "null" = .error parseFailMsg ∧
    parseComplexityResponse "null" = .error parseFailMsg ∧
    parseSecurityResponse "null" = .error parseFailMsg :=
  ⟨rfl, rfl, rfl, rfl, rfl, rfl, rfl⟩

/-- C2 (amended): each of the six normalizers throws exactly when the
fence-stripped, trimmed text is unparseable as JSON or parses to the JSON
value `null`; on every other parseable payload, missing or malformed fields
never cause an error. -/
theorem normalizer_error_iff_unparseable_or_null (s : String) :
    (parseExplainerResponse s = .error parseFailMsg ↔
      (jsonParse (cleanResp s.data) = none ∨ jsonParse (cleanResp s.data) = some .null)) ∧
    (parseBugFinderResponse s = .error parseFailMsg ↔
      (jsonParse (cleanResp s.data) = none ∨ jsonParse (cleanResp s.data) = some .null)) ∧
    (parseRefactoringResponse s = .error parseFailMsg ↔
      (jsonParse (cleanResp s.data) = none ∨ jsonParse (cleanResp s.data) = some .null)) ∧
    (parseCodeSmellResponse s = .error parseFailMsg ↔
      (jsonParse (cleanResp s.data) = none ∨ jsonParse (cleanResp s.data) = some .null)) ∧
    (parseComplexityResponse s = .error parseFailMsg ↔
      (jsonParse (cleanResp s.data) = none ∨ jsonParse (cleanResp s.data) = some .null)) ∧
    (parseSecurityResponse s = .error parseFailMsg ↔
      (jsonParse (cleanResp s.data) = none ∨ jsonParse (cleanResp s.data) = some .null)) :=
  ⟨runNorm_error_iff s explainerOfData
      (fun d hd => ⟨_, explainerOfData_eq d hd⟩) rfl,
   runNorm_error_iff s bugFinderOfData
      (fun d hd => ⟨_, bugFinderOfData_eq d hd⟩) rfl,
   runNorm_error_iff s refactorOfData
      (fun d hd => ⟨_, refactorOfData_eq d hd⟩) rfl,
   runNorm_error_iff s codeSmellOfData
      (fun d hd => ⟨_, codeSmellOfData_eq d hd⟩) rfl,
   runNorm_error_iff s complexityOfData
      (fun d hd => ⟨_, complexityOfData_eq d hd⟩) rfl,
   runNorm_error_iff s securityOfData
      (fun d hd => ⟨_, securityOfData_eq d hd⟩) rfl⟩

/-- C1 counterexample: a response supplying only one OWASP category key is
forwarded as-is — the normalized `categorySummary` is the partial one-key
map, missing the other nine fixed keys; likewise for the code-smell
histogram.  The claimed all-keys invariant fails. -/
theorem categorySummary_partial_forwarded :
    (parseSecurityResponse "\x7b\"categorySummary\": \x7b\"injection\": 2\x7d\x7d").map
      (fun r => r.categorySummary) = .ok (.obj [("injection", jnum 2)]) ∧
    hasAllNumKeys (.obj [("injection", jnum 2)]) secCatKeys = false ∧
    (parseCodeSmellResponse "\x7b\"categorySummary\": \x7b\"bloaters\": 1\x7d\x7d").map
      (fun r => r.categorySummary) = .ok (.obj [("bloaters", jnum 1)]) ∧
    hasAllNumKeys (.obj [("bloaters", jnum 1)]) smellCatKeys = false :=
  ⟨rfl, rfl, rfl, rfl⟩

/-- Inversion for a successful normalizer run: the cleaned response parsed,
and the `try` body succeeded on the parsed value. -/
theorem runNorm_ok_elim {α : Type} {s : String} {body : Json → Except Unit α} {r : α}
    (hr : runNorm s body = .ok r) :
    ∃ data, jsonParse (cleanResp s.data) = some data ∧ body data = .ok r := by
  unfold runNorm at hr
  split at hr
  · exact Except.noConfusion hr
  · rename_i data heq
    split at hr
    · exact Except.noConfusion hr
    · rename_i v hb
      cases hr
      exact ⟨data, heq, hb⟩

/-- C1 (amended): the normalized `categorySummary` is
`data.categorySummary || fullDefault`: the complete fixed-key all-zero map is
used exactly when the response's `categorySummary` is absent or falsy, and a
truthy supplied map — even a partial one — is forwarded verbatim.  The two
default maps do carry the complete fixed key sets. -/
theorem categorySummary_defaulting :
    (∀ (s : String) (data : Json) (r : SecurityResult),
      jsonParse (cleanResp s.data) = some data → parseSecurityResponse s = .ok r →
        r.categorySummary = jsOr (getMember data "categorySummary")
          categorySummarySecDefault) ∧
    (∀ (s : String) (data : Json) (r : CodeSmellResult),
      jsonParse (cleanResp s.data) = some data → parseCodeSmellResponse s = .ok r →
        r.categorySummary = jsOr (getMember data "categorySummary")
          categorySummarySmellDefault) ∧
    hasAllNumKeys categorySummarySecDefault secCatKeys = true ∧
    hasAllNumKeys categorySummarySmellDefault smellCatKeys = true := by
  refine ⟨?_, ?_, rfl, rfl⟩
  · intro s data r hp hr
    obtain ⟨data', hp', hb⟩ := runNorm_ok_elim hr
    rw [hp] at hp'
    injection hp' with hd'
    subst hd'
    by_cases hd : data = .null
    · subst hd
      rw [show securityOfData .null = Except.error () from rfl] at hb
      exact Except.noConfusion hb
    · rw [securityOfData_eq data hd] at hb
      injection hb with h
      rw [← h]
  · intro s data r hp hr
    obtain ⟨data', hp', hb⟩ := runNorm_ok_elim hr
    rw [hp] at hp'
    injection hp' with hd'
    subst hd'
    by_cases hd : data = .null
    · subst hd
      rw [show codeSmellOfData .null = Except.error () from rfl] at hb
      exact Except.noConfusion hb
    · rw [codeSmellOfData_eq data hd] at hb
      injection hb with h
      rw [← h]

/-- C1 witness: instantiating the defaulting theorem on concrete responses
with no `categorySummary` member, the histogram is the complete fixed-key
default map. -/
theorem categorySummary_defaulting_witness :
    ((⟨.arr [], jnum 0, severitySummarySecDefault, categorySummarySecDefault,
       jnum 70, .arr []⟩ : SecurityResult).categorySummary =
      jsOr (getMember (.obj [("vulnerabilities", .arr [])]) "categorySummary")
        categorySummarySecDefault) ∧
    ((⟨.arr [], jnum 0, categorySummarySmellDefault, jnum 70⟩ :
        CodeSmellResult).categorySummary =
      jsOr (getMember (.obj [("smells", .arr [])]) "categorySummary")
        categorySummarySmellDefault) :=
  ⟨categorySummary_defaulting.1 "\x7b\"vulnerabilities\": []\x7d"
      (.obj [("vulnerabilities", .arr [])])
      ⟨.arr [], jnum 0, severitySummarySecDefault, categorySummarySecDefault,
       jnum 70, .arr []⟩ rfl rfl,
   categorySummary_defaulting.2.1 "\x7b\"smells\": []\x7d"
      (.obj [("smells", .arr [])])
      ⟨.arr [], jnum 0, categorySummarySmellDefault, jnum 70⟩ rfl rfl⟩

/-- C4 counterexample: the response `{"overallScore": 0, "suggestions": []}`
supplies `overallScore` explicitly as 0, but `data.overallScore || 70`
treats the falsy 0 as absent, so the normalized score is 70, not the
supplied 0. -/
theorem explicit_zero_score_replaced :
    parseRefactoringResponse "\x7b\"overallScore\": 0, \"suggestions\": []\x7d" =
      .ok ⟨.arr [], jnum 70⟩ ∧ jnum 70 ≠ jnum 0 :=
  ⟨rfl, by simp [jnum]⟩

/-- C4 (amended): a present score field is passed through verbatim only when
its value is truthy; a present falsy value (0, `""`, `false`, `null`) is
replaced by the absent-field default exactly as if it were missing.  Stated
for the four score fields `overallScore`, `overallHealthScore`,
`maintainabilityIndex` and `securityScore`. -/
theorem score_field_truthy_passthrough :
    (∀ (s : String) (data : Json) (r : RefactorResult),
      jsonParse (cleanResp s.data) = some data → parseRefactoringResponse s = .ok r →
        r.overallScore = jsOr (getMember data "overallScore") (jnum 70) ∧
        (∀ v, getMember data "overallScore" = some v → v.truthy = true →
          r.overallScore = v) ∧
        (∀ v, getMember data "overallScore" = some v → v.truthy = false →
          r.overallScore = jnum 70)) ∧
    (∀ (s : String) (data : Json) (r : CodeSmellResult),
      jsonParse (cleanResp s.data) = some data → parseCodeSmellResponse s = .ok r →
        r.overallHealthScore = jsOr (getMember data "overallHealthScore") (jnum 70)) ∧
    (∀ (s : String) (data : Json) (r : ComplexityResult),
      jsonParse (cleanResp s.data) = some data → parseComplexityResponse s = .ok r →
        r.maintainabilityIndex = jsOr (getMember data "maintainabilityIndex") (jnum 70)) ∧
    (∀ (s : String) (data : Json) (r : SecurityResult),
      jsonParse (cleanResp s.data) = some data → parseSecurityResponse s = .ok r →
        r.securityScore = jsOr (getMember data "securityScore") (jnum 70)) := by
  refine ⟨?_, ?_, ?_, ?_⟩
  · intro s data r hp hr
    obtain ⟨data', hp', hb⟩ := runNorm_ok_elim hr
    rw [hp] at hp'
    injection hp' with hd'
    subst hd'
    by_cases hd : data = .null
    · subst hd
      rw [show refactorOfData .null = Except.error () from rfl] at hb
      exact Except.noConfusion hb
    · rw [refactorOfData_eq data hd] at hb
      injection hb with h
      refine ⟨by rw [← h], ?_, ?_⟩
      · intro v hv htr
        rw [← h]
        show jsOr (getMember data "overallScore") (jnum 70) = v
        rw [hv, jsOr, htr]
        simp
      · intro v hv htr
        rw [← h]
        show jsOr (getMember data "overallScore") (jnum 70) = jnum 70
        rw [hv, jsOr, htr]
        simp
  · intro s data r hp hr
    obtain ⟨data', hp', hb⟩ := runNorm_ok_elim hr
    rw [hp] at hp'
    injection hp' with hd'
    subst hd'
    by_cases hd : data = .null
    · subst hd
      rw [show codeSmellOfData .null = Except.error () from rfl] at hb
      exact Except.noConfusion hb
    · rw [codeSmellOfData_eq data hd] at hb
      injection hb with h
      rw [← h]
  · intro s data r hp hr
    obtain ⟨data', hp', hb⟩ := runNorm_ok_elim hr
    rw [hp] at hp'
    injection hp' with hd'
    subst hd'
    by_cases hd : data = .null
    · subst hd
      rw [show complexityOfData .null = Except.error () from rfl] at hb
      exact Except.noConfusion hb
    · rw [complexityOfData_eq data hd] at hb
      injection hb with h
      rw [← h]
  · intro s data r hp hr
    obtain ⟨data', hp', hb⟩ := runNorm_ok_elim hr
    rw [hp] at hp'
    injection hp' with hd'
    subst hd'
    by_cases hd : data = .null
    · subst hd
      rw [show securityOfData .null = Except.error () from rfl] at hb
      exact Except.noConfusion hb
    · rw [securityOfData_eq data hd] at hb
      injection hb with h
      rw [← h]

/-- C4 witness: a truthy supplied score (55) is passed through verbatim. -/
theorem score_field_truthy_passthrough_witness :
    (⟨.arr [], jnum 55⟩ : RefactorResult).overallScore = jnum 55 :=
  (score_field_truthy_passthrough.1 "\x7b\"overallScore\": 55\x7d"
      (.obj [("overallScore", jnum 55)]) ⟨.arr [], jnum 55⟩ rfl rfl).2.1
    (jnum 55) rfl rfl

/-- C5 counterexample: the response `{"totalCount": 5, "smells": []}` supplies
an explicit `totalCount` of 5, but `parseCodeSmellResponse` computes
`data.smells?.length || 0` and never reads the explicit value, yielding 0. -/
theorem explicit_totalCount_ignored :
    parseCodeSmellResponse "\x7b\"totalCount\": 5, \"smells\": []\x7d" =
      .ok ⟨.arr [], jnum 0, categorySummarySmellDefault, jnum 70⟩ ∧
    jnum 0 ≠ jnum 5 :=
  ⟨rfl, by simp [jnum]⟩

/-- C5 (amended): only `BugFinderResult.totalCount` follows the claimed
preference chain (truthy explicit value, else truthy list length, else 0);
`CodeSmellResult.totalCount` and `SecurityResult.totalCount` are always
derived from the respective list's length (`|| 0`), ignoring any explicit
`totalCount` in the response. -/
theorem totalCount_derivation :
    (∀ (s : String) (data : Json) (r : BugFinderResult),
      jsonParse (cleanResp s.data) = some data → parseBugFinderResponse s = .ok r →
        r.totalCount = jsOr (getMember data "totalCount")
          (jsOr (optChainLength (getMember data "bugs")) (jnum 0))) ∧
    (∀ (s : String) (data : Json) (r : CodeSmellResult),
      jsonParse (cleanResp s.data) = some data → parseCodeSmellResponse s = .ok r →
        r.totalCount = jsOr (optChainLength (getMember data "smells")) (jnum 0)) ∧
    (∀ (s : String) (data : Json) (r : SecurityResult),
      jsonParse (cleanResp s.data) = some data → parseSecurityResponse s = .ok r →
        r.totalCount = jsOr (optChainLength (getMember data "vulnerabilities"))
          (jnum 0)) := by
  refine ⟨?_, ?_, ?_⟩
  · intro s data r hp hr
    obtain ⟨data', hp', hb⟩ := runNorm_ok_elim hr
    rw [hp] at hp'
    injection hp' with hd'
    subst hd'
    by_cases hd : data = .null
    · subst hd
      rw [show bugFinderOfData .null = Except.error () from rfl] at hb
      exact Except.noConfusion hb
    · rw [bugFinderOfData_eq data hd] at hb
      injection hb with h
      rw [← h]
  · intro s data r hp hr
    obtain ⟨data', hp', hb⟩ := runNorm_ok_elim hr
    rw [hp] at hp'
    injection hp' with hd'
    subst hd'
    by_cases hd : data = .null
    · subst hd
      rw [show codeSmellOfData .null = Except.error () from rfl] at hb
      exact Except.noConfusion hb
    · rw [codeSmellOfData_eq data hd] at hb
      injection hb with h
      rw [← h]
  · intro s data r hp hr
    obtain ⟨data', hp', hb⟩ := runNorm_ok_elim hr
    rw [hp] at hp'
    injection hp' with hd'
    subst hd'
    by_cases hd : data = .null
    · subst hd
      rw [show securityOfData .null = Except.error () from rfl] at hb
      exact Except.noConfusion hb
    · rw [securityOfData_eq data hd] at hb
      injection hb with h
      rw [← h]

/-- C5 witness: on `{"bugs": [], "totalCount": 7}` the bug finder's count is
the truthy explicit 7, while on `{"smells": [], "totalCount": 7}` the smell
detector's count is the empty list's length defaulted to 0. -/
theorem totalCount_derivation_witness :
    (⟨.arr [], jnum 7, severitySummaryBugDefault⟩ : BugFinderResult).totalCount =
      jsOr (getMember (.obj [("bugs", .arr []), ("totalCount", jnum 7)]) "totalCount")
        (jsOr (optChainLength
          (getMember (.obj [("bugs", .arr []), ("totalCount", jnum 7)]) "bugs"))
          (jnum 0)) ∧
    (⟨.arr [], jnum 0, categorySummarySmellDefault, jnum 70⟩ :
        CodeSmellResult).totalCount =
      jsOr (optChainLength
        (getMember (.obj [("smells", .arr []), ("totalCount", jnum 7)]) "smells"))
        (jnum 0) :=
  ⟨totalCount_derivation.1 "\x7b\"bugs\": [], \"totalCount\": 7\x7d"
      (.obj [("bugs", .arr []), ("totalCount", jnum 7)])
      ⟨.arr [], jnum 7, severitySummaryBugDefault⟩ rfl rfl,
   totalCount_derivation.2.1 "\x7b\"smells\": [], \"totalCount\": 7\x7d"
      (.obj [("smells", .arr []), ("totalCount", jnum 7)])
      ⟨.arr [], jnum 0, categorySummarySmellDefault, jnum 70⟩ rfl rfl⟩

/-- The detector's empty-input guard is off exactly when the trimmed code is
nonempty. -/
theorem detect_guard_false {code : String} (h : (jsTrim code.data).isEmpty = false) :
    (code.data.isEmpty || (jsTrim code.data).isEmpty) = false := by
  rcases hc : code.data with _ | ⟨a, l⟩
  · rw [hc] at h
    exact absurd h (by decide)
  · rw [hc] at h
    simp [h]

/-- Any value of the detector's guarded if-cascade lies in the closed
language set. -/
theorem ifChain_mem (g p j cs cp go r rb ph ts js : Bool) :
    (if g = true then "javascript"
     else if p = true then "python"
     else if j = true then "java"
     else if cs = true then "csharp"
     else if cp = true then "cpp"
     else if go = true then "go"
     else if r = true then "rust"
     else if rb = true then "ruby"
     else if ph = true then "php"
     else if ts = true then "typescript"
     else if js = true then "javascript"
     else "javascript") ∈ languageTags := by
  cases g
  case' true => simp [languageTags]
  case' false =>
  cases p
  case' true => simp [languageTags]
  case' false =>
  cases j
  case' true => simp [languageTags]
  case' false =>
  cases cs
  case' true => simp [languageTags]
  case' false =>
  cases cp
  case' true => simp [languageTags]
  case' false =>
  cases go
  case' true => simp [languageTags]
  case' false =>
  cases r
  case' true => simp [languageTags]
  case' false =>
  cases rb
  case' true => simp [languageTags]
  case' false =>
  cases ph
  case' true => simp [languageTags]
  case' false =>
  cases ts
  case' true => simp [languageTags]
  case' false =>
  cases js <;> simp [languageTags]

/-- C6: `detectLanguage` is total — on every input it returns one of the ten
fixed tags, returns the fallback `javascript` on empty or whitespace-only
input, and returns `javascript` when no language signature matches. -/
theorem detectLanguage_total (code : String) :
    detectLanguage code ∈ languageTags ∧
    ((jsTrim code.data).isEmpty = true → detectLanguage code = "javascript") ∧
    (anyLangSignal code = false → detectLanguage code = "javascript") := by
  refine ⟨?_, ?_, ?_⟩
  · unfold detectLanguage
    exact ifChain_mem _ _ _ _ _ _ _ _ _ _ _
  · intro h
    have hg : (code.data.isEmpty || (jsTrim code.data).isEmpty) = true := by simp [h]
    unfold detectLanguage
    rw [hg]
    simp
  · intro h
    simp only [anyLangSignal, Bool.or_eq_false_iff] at h
    obtain ⟨⟨⟨⟨⟨⟨⟨⟨⟨h1, h2⟩, h3⟩, h4⟩, h5⟩, h6⟩, h7⟩, h8⟩, h9⟩, h10⟩ := h
    unfold detectLanguage
    by_cases hg : (code.data.isEmpty || (jsTrim code.data).isEmpty) = true
    · rw [if_pos hg]
    · simp [hg, h1, h2, h3, h4, h5, h6, h7, h8, h9, h10]

/-- C6 witness: whitespace-only input and signature-free input both fall back
to `javascript`. -/
theorem detectLanguage_total_witness :
    detectLanguage "   " = "javascript" ∧ detectLanguage "@@" = "javascript" :=
  ⟨(detectLanguage_total "   ").2.1 (by decide),
   (detectLanguage_total "@@").2.2 (by decide)⟩

/-- C7: on nonempty input the detector agrees with the spec's fixed-priority
first-match cascade (Python, Java, C#, C++, Go, Rust, Ruby, PHP, TypeScript,
JavaScript), and the adversarial snippet `def f():\n  return x`, which also
contains JavaScript-signature tokens, resolves to `python` because Python is
checked first. -/
theorem detectLanguage_priority_order :
    (∀ code : String, (jsTrim code.data).isEmpty = false →
      detectLanguage code = specFirstMatchLang code) ∧
    detectLanguage "def f():\n  return x" = "python" := by
  constructor
  · intro code h
    unfold detectLanguage specFirstMatchLang
    rw [detect_guard_false h]
    by_cases h1 : pythonCond (line0Of code) (codeContentOf code) = true
    · simp [h1, List.find?]
    · by_cases h2 : javaCond (codeContentOf code) = true
      · simp [h1, h2, List.find?]
      · by_cases h3 : csharpCond (codeContentOf code) = true
        · simp [h1, h2, h3, List.find?]
        · by_cases h4 : cppCond (codeContentOf code) = true
          · simp [h1, h2, h3, h4, List.find?]
          · by_cases h5 : goCond (trimmedCodeOf code) (codeContentOf code) = true
            · simp [h1, h2, h3, h4, h5, List.find?]
            · by_cases h6 : rustCond (codeContentOf code) = true
              · simp [h1, h2, h3, h4, h5, h6, List.find?]
              · by_cases h7 : rubyCond (codeContentOf code) = true
                · simp [h1, h2, h3, h4, h5, h6, h7, List.find?]
                · by_cases h8 : phpCond (trimmedCodeOf code) (codeContentOf code) = true
                  · simp [h1, h2, h3, h4, h5, h6, h7, h8, List.find?]
                  · by_cases h9 : tsCond (codeContentOf code) = true
                    · simp [h1, h2, h3, h4, h5, h6, h7, h8, h9, List.find?]
                    · by_cases h10 : jsCond (codeContentOf code) = true
                      · simp [h1, h2, h3, h4, h5, h6, h7, h8, h9, h10, List.find?]
                      · simp [h1, h2, h3, h4, h5, h6, h7, h8, h9, h10, List.find?]
  · decide

/-- C7 witness: the detector and the spec cascade agree on the adversarial
Python/JavaScript snippet. -/
theorem detectLanguage_priority_order_witness :
    detectLanguage "def f():\n  return x" =
      specFirstMatchLang "def f():\n  return x" :=
  detectLanguage_priority_order.1 _ (by decide)

/-- C9: whenever the trimmed first line ends in a colon, the detector answers
`python` — the colon probe is tested on the raw trimmed line list before
comment stripping and before any other language's signature. -/
theorem detectLanguage_first_line_colon_python (code : String)
    (h : (jsTrim code.data).isEmpty = false)
    (hc : (line0Of code).getLast? = some ':') :
    detectLanguage code = "python" := by
  have hcol : colonEol (line0Of code) = true := by
    have hrev : (line0Of code).reverse.head? = some ':' := by
      rw [List.head?_reverse]
      exact hc
    rcases hr : (line0Of code).reverse with _ | ⟨c, t⟩
    · rw [hr] at hrev
      exact Option.noConfusion hrev
    · rw [hr] at hrev
      injection hrev with hcc
      subst hcc
      unfold colonEol
      rw [hr]
      simp [List.dropWhile, isJsSpace]
  unfold detectLanguage
  rw [detect_guard_false h]
  simp [pythonCond, hcol]

/-- C9 witness: a first line that is a `//` comment ending in a colon forces
`python` even though the remaining lines carry Java signatures. -/
theorem detectLanguage_first_line_colon_python_witness :
    detectLanguage "// note:\nSystem.out.println(x);" = "python" :=
  detectLanguage_first_line_colon_python _ (by decide) (by decide)

end CodeQuality
